import Mathlib

/-!
Verification of the agent state machine and device/slot allocation engine of
`master/internal/rm/agentrm/agent_state.go`.

Go maps are embedded as association lists (`List (α × β)`): `mlookup` is map
indexing, `minsert` is map assignment, `merase` is `delete`.  A key present
with a `none` value models a Go map entry holding a nil pointer, which is
distinct from an absent key.  Per-agent operations mutate a single
`agentState` owned by one sequential processor, so value-passing state
threading is observationally equivalent to the Go in-place mutation; the one
place where pointer aliasing is observable across two aggregates (`deepCopy`
sharing the slot table) is modelled separately with an explicit slot store.
-/

namespace AgentRM

section AssocMap

variable {α : Type} {β : Type} [DecidableEq α]

/-- Go map indexing `m[k]`: the first entry with key `k`, if any. -/
def mlookup : List (α × β) → α → Option β
  | [], _ => none
  | (k, v) :: r, a => if a = k then some v else mlookup r a

/-- Go map assignment `m[k] = v`: replace the entry if present, else append. -/
def minsert : List (α × β) → α → β → List (α × β)
  | [], a, b => [(a, b)]
  | (k, v) :: r, a, b => if a = k then (a, b) :: r else (k, v) :: minsert r a b

/-- Go `delete(m, k)`: drop the first entry with key `k`. -/
def merase : List (α × β) → α → List (α × β)
  | [], _ => []
  | (k, v) :: r, a => if a = k then r else (k, v) :: merase r a

/-- The keys of the association list, in order. -/
def mkeys (m : List (α × β)) : List α := m.map (·.1)

theorem mlookup_nil (a : α) : mlookup ([] : List (α × β)) a = none := rfl

theorem mlookup_cons (k : α) (v : β) (r : List (α × β)) (a : α) :
    mlookup ((k, v) :: r) a = if a = k then some v else mlookup r a := rfl

theorem mlookup_minsert (m : List (α × β)) (k : α) (v : β) (a : α) :
    mlookup (minsert m k v) a = if a = k then some v else mlookup m a := by
  induction m with
  | nil => simp [minsert, mlookup]
  | cons h r ih =>
    obtain ⟨k', v'⟩ := h
    by_cases hk : k = k'
    · subst hk
      by_cases ha : a = k <;> simp [minsert, mlookup, ha]
    · simp only [minsert, if_neg hk, mlookup]
      by_cases ha : a = k'
      · subst ha
        simp [Ne.symm hk, mlookup]
      · simp [ha, ih]

theorem mlookup_merase_ne (m : List (α × β)) (k a : α) (h : a ≠ k) :
    mlookup (merase m k) a = mlookup m a := by
  induction m with
  | nil => rfl
  | cons hd r ih =>
    obtain ⟨k', v'⟩ := hd
    by_cases hk : k = k'
    · subst hk
      simp [merase, mlookup, h]
    · simp only [merase, if_neg hk, mlookup]
      by_cases ha : a = k'
      · simp [ha]
      · simp [ha, ih]

theorem mlookup_eq_none_iff (m : List (α × β)) (a : α) :
    mlookup m a = none ↔ a ∉ mkeys m := by
  induction m with
  | nil => simp [mlookup, mkeys]
  | cons hd r ih =>
    obtain ⟨k, v⟩ := hd
    by_cases ha : a = k
    · simp [mlookup, ha, mkeys]
    · simp [mlookup, ha, mkeys, ih, mkeys]

theorem mem_of_mlookup_eq_some (m : List (α × β)) (k : α) (v : β)
    (h : mlookup m k = some v) : (k, v) ∈ m := by
  induction m with
  | nil => simp [mlookup] at h
  | cons hd r ih =>
    obtain ⟨k', v'⟩ := hd
    by_cases hk : k = k'
    · subst hk
      simp [mlookup] at h
      exact List.mem_cons.2 (Or.inl (by rw [h]))
    · simp only [mlookup, if_neg hk] at h
      exact List.mem_cons.2 (Or.inr (ih h))

theorem mlookup_isSome_iff (m : List (α × β)) (a : α) :
    (mlookup m a).isSome ↔ a ∈ mkeys m := by
  cases hv : mlookup m a with
  | none =>
    simp only [Option.isSome_none, Bool.false_eq_true, false_iff]
    exact (mlookup_eq_none_iff m a).1 hv
  | some v =>
    simp only [Option.isSome_some, true_iff]
    exact List.mem_map.2 ⟨(a, v), mem_of_mlookup_eq_some m a v hv, rfl⟩

theorem mlookup_merase_self (m : List (α × β)) (k : α) (h : (mkeys m).Nodup) :
    mlookup (merase m k) k = none := by
  induction m with
  | nil => rfl
  | cons hd r ih =>
    obtain ⟨k', v'⟩ := hd
    simp only [mkeys, List.map_cons, List.nodup_cons] at h
    by_cases hk : k = k'
    · subst hk
      simp only [merase, if_pos rfl]
      exact (mlookup_eq_none_iff r k).2 h.1
    · simp only [merase, if_neg hk, mlookup, if_neg hk]
      exact ih h.2

theorem mlookup_eq_of_mem_nodup (m : List (α × β)) (k : α) (v : β)
    (hn : (mkeys m).Nodup) (hm : (k, v) ∈ m) : mlookup m k = some v := by
  induction m with
  | nil => simp at hm
  | cons hd r ih =>
    obtain ⟨k', v'⟩ := hd
    simp only [mkeys, List.map_cons, List.nodup_cons] at hn
    rcases List.mem_cons.1 hm with hh | ht
    · obtain ⟨rfl, rfl⟩ : k = k' ∧ v = v' := Prod.mk.injEq .. ▸ hh
      simp [mlookup]
    · have hne : k ≠ k' := by
        rintro rfl
        exact hn.1 (List.mem_map.2 ⟨(k, v), ht, rfl⟩)
      simp [mlookup, hne, ih hn.2 ht]

/-- Looking up a list whose values were rewritten pointwise. -/
theorem mlookup_map_value (m : List (α × β)) (f : α → β → β) (a : α) :
    mlookup (m.map (fun p => (p.1, f p.1 p.2))) a = (mlookup m a).map (f a) := by
  induction m with
  | nil => rfl
  | cons hd r ih =>
    obtain ⟨k, v⟩ := hd
    by_cases ha : a = k
    · simp [mlookup, ha]
    · simp [mlookup, ha, ih]

/-- Looking up a list filtered by a predicate on keys. -/
theorem mlookup_filter_key (m : List (α × β)) (q : α → Bool) (a : α) :
    mlookup (m.filter (fun p => q p.1)) a =
      if q a then mlookup m a else none := by
  induction m with
  | nil => simp [mlookup]
  | cons hd r ih =>
    obtain ⟨k, v⟩ := hd
    by_cases hq : q k
    · rw [List.filter_cons_of_pos (by simpa using hq)]
      by_cases ha : a = k
      · subst ha
        simp [mlookup, hq]
      · simp [mlookup, ha, ih]
    · rw [List.filter_cons_of_neg (by simpa using hq)]
      by_cases ha : a = k
      · subst ha
        simp [mlookup, hq, ih]
      · simp [mlookup, ha, ih]

theorem mem_mkeys_minsert (m : List (α × β)) (k : α) (v : β) (a : α) :
    a ∈ mkeys (minsert m k v) ↔ a ∈ mkeys m ∨ a = k := by
  induction m with
  | nil => simp [minsert, mkeys]
  | cons hd r ih =>
    obtain ⟨k', v'⟩ := hd
    by_cases hk : k = k'
    · have hrw : minsert ((k', v') :: r) k v = (k, v) :: r := by
        simp [minsert, hk]
      rw [hrw]
      subst hk
      simp only [mkeys, List.map_cons, List.mem_cons]
      tauto
    · simp only [minsert, if_neg hk, mkeys, List.map_cons, List.mem_cons]
      constructor
      · intro hmem
        rcases hmem with h1 | h2
        · exact Or.inl (Or.inl h1)
        · rcases (ih).1 (by simpa [mkeys] using h2) with ha | hb
          · exact Or.inl (Or.inr (by simpa [mkeys] using ha))
          · exact Or.inr hb
      · intro hmem
        rcases hmem with (h1 | h2) | h3
        · exact Or.inl h1
        · exact Or.inr (by
            have := (ih).2 (Or.inl (by simpa [mkeys] using h2))
            simpa [mkeys] using this)
        · exact Or.inr (by
            have := (ih).2 (Or.inr h3)
            simpa [mkeys] using this)

theorem mkeys_minsert_nodup (m : List (α × β)) (k : α) (v : β)
    (h : (mkeys m).Nodup) : (mkeys (minsert m k v)).Nodup := by
  induction m with
  | nil => simp [minsert, mkeys]
  | cons hd r ih =>
    obtain ⟨k', v'⟩ := hd
    simp only [mkeys, List.map_cons, List.nodup_cons] at h
    by_cases hk : k = k'
    · have hrw : minsert ((k', v') :: r) k v = (k, v) :: r := by
        simp [minsert, hk]
      rw [hrw]
      subst hk
      simp only [mkeys, List.map_cons, List.nodup_cons]
      exact ⟨h.1, h.2⟩
    · simp only [minsert, if_neg hk, mkeys, List.map_cons, List.nodup_cons]
      refine ⟨?_, ih h.2⟩
      intro hmem
      rcases (mem_mkeys_minsert r k v k').1 (by simpa [mkeys] using hmem)
        with h1 | h2
      · exact h.1 h1
      · exact hk h2.symm

/-- Inserting a fresh key appends the binding at the end. -/
theorem minsert_not_mem (m : List (α × β)) (k : α) (v : β)
    (h : k ∉ mkeys m) : minsert m k v = m ++ [(k, v)] := by
  induction m with
  | nil => rfl
  | cons hd r ih =>
    obtain ⟨k', v'⟩ := hd
    simp only [mkeys, List.map_cons, List.mem_cons, not_or] at h
    simp [minsert, h.1, ih h.2]

/-- Rebuilding an association list with distinct keys entry by entry yields
the same list. -/
theorem foldl_minsert_eq_self (m : List (α × β)) (h : (mkeys m).Nodup) :
    m.foldl (fun acc p => minsert acc p.1 p.2) [] = m := by
  suffices hgen : ∀ acc : List (α × β),
      (∀ a, a ∈ mkeys acc → a ∉ mkeys m) →
      m.foldl (fun acc p => minsert acc p.1 p.2) acc = acc ++ m by
    simpa using hgen [] (by simp [mkeys])
  induction m with
  | nil => simp
  | cons hd r ih =>
    intro acc hdisj
    obtain ⟨k, v⟩ := hd
    simp only [mkeys, List.map_cons, List.nodup_cons] at h
    simp only [List.foldl_cons]
    rw [minsert_not_mem acc k v
      (fun hmem => hdisj k hmem (by simp [mkeys]))]
    rw [ih h.2 (acc ++ [(k, v)]) ?_]
    · simp
    · intro a ha
      simp only [mkeys, List.map_append, List.mem_append, List.map_cons,
        List.mem_singleton] at ha
      rcases ha with h1 | h2
      · intro hmem
        exact hdisj a h1 (by simp [mkeys]; right; simpa [mkeys] using hmem)
      · simp only [List.map_nil, List.mem_singleton] at h2
        intro hmem
        rw [h2] at hmem
        exact h.1 (by simpa [mkeys] using hmem)

theorem mkeys_foldl_minsert_nodup {γ : Type} (l : List γ) (key : γ → α)
    (val : γ → β) (acc : List (α × β)) (hacc : (mkeys acc).Nodup) :
    (mkeys (l.foldl (fun m x => minsert m (key x) (val x)) acc)).Nodup := by
  induction l generalizing acc with
  | nil => exact hacc
  | cons x r ih => exact ih _ (mkeys_minsert_nodup _ _ _ hacc)

/-- Association lists with no duplicate keys and identical lookups have the
same length. -/
theorem length_eq_of_mlookup_eq (m₁ m₂ : List (α × β))
    (h₁ : (mkeys m₁).Nodup) (h₂ : (mkeys m₂).Nodup)
    (h : ∀ a, mlookup m₁ a = mlookup m₂ a) : m₁.length = m₂.length := by
  have hmem : ∀ a, a ∈ mkeys m₁ ↔ a ∈ mkeys m₂ := by
    intro a
    rw [← mlookup_isSome_iff, ← mlookup_isSome_iff, h a]
  have hperm : List.Perm (mkeys m₁) (mkeys m₂) :=
    (List.perm_ext_iff_of_nodup h₁ h₂).2 hmem
  simpa [mkeys] using hperm.length_eq

theorem mem_mkeys_foldl_minsert {γ : Type} (l : List γ) (key : γ → α)
    (val : γ → β) (acc : List (α × β)) (a : α) :
    a ∈ mkeys (l.foldl (fun m x => minsert m (key x) (val x)) acc) ↔
      a ∈ mkeys acc ∨ ∃ x ∈ l, key x = a := by
  induction l generalizing acc with
  | nil => simp
  | cons x l ih =>
    simp only [List.foldl_cons, ih, mem_mkeys_minsert, List.mem_cons]
    constructor
    · rintro ((h1 | h2) | ⟨y, hy, hk⟩)
      · exact Or.inl h1
      · exact Or.inr ⟨x, Or.inl rfl, h2.symm⟩
      · exact Or.inr ⟨y, Or.inr hy, hk⟩
    · rintro (h1 | ⟨y, hy | hy, hk⟩)
      · exact Or.inl (Or.inl h1)
      · exact Or.inl (Or.inr (by rw [← hk, hy]))
      · exact Or.inr ⟨y, hy, hk⟩

/-- Folding fresh-keyed insertions rebuilds the mapped association list. -/
theorem foldl_minsert_map {γ : Type} (l : List γ) (key : γ → α) (val : γ → β)
    (hn : (l.map key).Nodup) :
    l.foldl (fun m x => minsert m (key x) (val x)) [] =
      l.map (fun x => (key x, val x)) := by
  have hfold : l.foldl (fun m x => minsert m (key x) (val x)) [] =
      (l.map (fun x => (key x, val x))).foldl
        (fun m p => minsert m p.1 p.2) [] := by
    rw [List.foldl_map]
  rw [hfold]
  apply foldl_minsert_eq_self
  simpa [mkeys, List.map_map, Function.comp] using hn

theorem merase_eq_self_of_mlookup_none (m : List (α × β)) (k : α)
    (h : mlookup m k = none) : merase m k = m := by
  induction m with
  | nil => rfl
  | cons hd r ih =>
    obtain ⟨k', v'⟩ := hd
    by_cases hk : k = k'
    · rw [mlookup_cons, if_pos hk] at h
      exact absurd h (by simp)
    · rw [mlookup_cons, if_neg hk] at h
      simp [merase, hk, ih h]

end AssocMap

/-- Container identifier (`cproto.ID`, a string). -/
abbrev CID := String

/-- Allocation identifier (`model.AllocationID`, a string); the Go zero value
is the empty string. -/
abbrev AllocationID := String

/-- Device identifier (`device.ID`, an integer). -/
abbrev DeviceID := Int

/-- Modelled from the spec: `device.Device` (its Go definition is outside
this repository slice) is a stable device ID plus descriptive metadata,
immutable once reported.  All descriptive fields are collapsed into one
`metadata` component; the Go zero value has `id = 0` and empty metadata. -/
structure Device where
  id : DeviceID
  metadata : String
deriving DecidableEq, Repr

/-- Modelled from the spec: container lifecycle states
{Assigned, Starting, Running, Terminated}; `unset` is the Go zero value of
`cproto.State` used by `cproto.Container{ID: cid}`. -/
inductive CState where
  | unset : CState
  | assigned : CState
  | starting : CState
  | running : CState
  | terminated : CState
deriving DecidableEq, Repr

/-- Modelled from the spec: `cproto.Container` (defined outside this
repository slice) carries its ID, lifecycle state and occupied devices. -/
structure Container where
  id : CID
  state : CState
  devices : List Device
deriving DecidableEq, Repr

/-- `slotEnabled` from `agent_state.go`. -/
structure SlotEnabled where
  deviceAdded : Bool
  agentEnabled : Bool
  userEnabled : Bool
  draining : Bool
deriving DecidableEq, Repr

/-- `slotEnabled.enabled()`. -/
def SlotEnabled.enabled (s : SlotEnabled) : Bool :=
  s.agentEnabled && s.userEnabled

/-- `slot` from `agent_state.go`: one per-device runtime record. -/
structure Slot where
  device : Device
  enabled : SlotEnabled
  containerID : Option CID
deriving DecidableEq, Repr

/-- `agentState` from `agent_state.go`.  The `syslog` and `handler` fields
are logging/transport plumbing with no effect on the state machine and are
omitted; `uuid` is kept as a plain string. -/
structure AgentState where
  id : String
  Devices : List (Device × Option CID)
  resourcePoolName : String
  enabled : Bool
  draining : Bool
  uuid : String
  maxZeroSlotContainers : Nat
  slotStates : List (DeviceID × Slot)
  containerAllocation : List (CID × AllocationID)
  containerState : List (CID × Container)
deriving DecidableEq, Repr

/-- `newAgentState`: a fresh, enabled agent with empty maps.  The random
UUID is modelled as the empty string (its value never matters here). -/
def newAgentState (id : String) (maxZeroSlotContainers : Nat) : AgentState :=
  { id := id
    Devices := []
    resourcePoolName := ""
    enabled := true
    draining := false
    uuid := ""
    maxZeroSlotContainers := maxZeroSlotContainers
    slotStates := []
    containerAllocation := []
    containerState := [] }

/-- `numUsedSlots`: devices in the view with a non-nil occupant. -/
def numUsedSlots (a : AgentState) : Nat :=
  (a.Devices.filter (fun p => p.2.isSome)).length

/-- `numSlots`: total slots reported for scheduling. -/
def numSlots (a : AgentState) : Nat :=
  if a.draining then numUsedSlots a
  else if !a.enabled then 0
  else a.Devices.length

/-- `numEmptySlots`: slots not allocated to containers.  The Go subtraction
is on `int`, but `numUsedSlots ≤ numSlots` in the branch where the
subtraction happens, so `Nat` subtraction agrees. -/
def numEmptySlots (a : AgentState) : Nat :=
  if a.draining || !a.enabled then 0
  else numSlots a - numUsedSlots a

/-- `numUsedZeroSlots`: tracked containers occupying no devices. -/
def numUsedZeroSlots (a : AgentState) : Nat :=
  (a.containerState.filter (fun p => p.2.devices.length = 0)).length

/-- `numZeroSlots`. -/
def numZeroSlots (a : AgentState) : Nat :=
  if a.draining then numUsedZeroSlots a
  else if !a.enabled then 0
  else a.maxZeroSlotContainers

/-- `numEmptyZeroSlots`. -/
def numEmptyZeroSlots (a : AgentState) : Nat :=
  if a.draining || !a.enabled then 0
  else numZeroSlots a - numUsedZeroSlots a

/-- `idle`. -/
def idle (a : AgentState) : Bool :=
  numUsedZeroSlots a = 0 && numUsedSlots a = 0

/-- `enable`: sets `enabled` and cancels draining. -/
def enable (a : AgentState) : AgentState :=
  { a with enabled := true, draining := false }

/-- `disable(drain)`: records the drain flag and clears `enabled`. -/
def disable (a : AgentState) (drain : Bool) : AgentState :=
  { a with draining := drain, enabled := false }

/-- The device-collecting loop of `allocateFreeDevices`: append each free
device, stopping as soon as `slots` devices are collected. -/
def collectFreeAux (slots : Nat) :
    List (Device × Option CID) → List Device → List Device
  | [], acc => acc
  | (d, occ) :: r, acc =>
    let acc' := match occ with
      | none => acc ++ [d]
      | some _ => acc
    if acc'.length = slots then acc' else collectFreeAux slots r acc'

/-- The claiming loop of `allocateFreeDevices`: point each chosen device at
the container. -/
def claimAll (m : List (Device × Option CID)) (ds : List Device) (cid : CID) :
    List (Device × Option CID) :=
  ds.foldl (fun m d => minsert m d (some cid)) m

/-- The container record `cproto.Container{ID: cid}` registered by
`allocateFreeDevices` before any device is claimed. -/
def emptyContainerRecord (cid : CID) : Container :=
  { id := cid, state := .unset, devices := [] }

/-- `allocateFreeDevices(slots, cid)`: registers a container record
unconditionally, then claims `slots` free devices or fails with no device
claimed. -/
def allocateFreeDevices (a : AgentState) (slots : Nat) (cid : CID) :
    AgentState × Except String (List Device) :=
  let a₀ := { a with
    containerState :=
      minsert a.containerState cid (emptyContainerRecord cid) }
  if slots = 0 then (a₀, .ok [])
  else
    let devices := collectFreeAux slots a₀.Devices []
    if devices.length ≠ slots then (a₀, .error "not enough devices")
    else
      ({ a₀ with
          Devices := claimAll a₀.Devices devices cid
          containerState :=
            minsert a₀.containerState cid
              { emptyContainerRecord cid with devices := devices } },
        .ok devices)

/-- `deallocateContainer(id)`: drop the container record and nil out every
device the container occupied. -/
def deallocateContainer (a : AgentState) (id : CID) : AgentState :=
  { a with
    containerState := merase a.containerState id
    Devices := a.Devices.map (fun p =>
      if p.2 = some id then (p.1, none) else (p.1, p.2)) }

/-- `addDevice`: expose a device in the allocation-visible view. -/
def addDevice (a : AgentState) (d : Device) (containerID : Option CID) :
    AgentState :=
  { a with Devices := minsert a.Devices d containerID }

/-- `removeDevice`: hide a device from the allocation-visible view. -/
def removeDevice (a : AgentState) (d : Device) : AgentState :=
  { a with Devices := merase a.Devices d }

/-- The force-release message published to the allocation-event bus
(`sproto.ReleaseResources`). -/
structure ReleaseResources where
  allocationID : AllocationID
  reason : String
  forceKill : Bool
deriving DecidableEq, Repr

/-- `updateSlotDeviceView(deviceID)`: the single transition function keeping
`Devices` and `deviceAdded` in sync with `enabled()`, publishing a
force-release when a non-draining disable evicts an occupant.  Returns the
new state together with the list of published events.  The Go lookup
`a.containerAllocation[*s.containerID]` yields the zero `AllocationID` for a
missing key, modelled by `Option.getD ""`. -/
def updateSlotDeviceView (a : AgentState) (deviceID : DeviceID) :
    AgentState × List ReleaseResources :=
  match mlookup a.slotStates deviceID with
  | none => (a, [])
  | some s =>
    if s.enabled.enabled && !s.enabled.deviceAdded then
      let s' := { s with enabled := { s.enabled with deviceAdded := true } }
      (addDevice { a with slotStates := minsert a.slotStates deviceID s' }
        s'.device s'.containerID, [])
    else if !s.enabled.enabled then
      let a' :=
        if !s.enabled.draining && s.enabled.deviceAdded then
          let s' := { s with enabled := { s.enabled with deviceAdded := false } }
          removeDevice { a with slotStates := minsert a.slotStates deviceID s' }
            s.device
        else a
      let events :=
        if !s.enabled.draining then
          match s.containerID with
          | some c =>
            [{ allocationID := (mlookup a.containerAllocation c).getD ""
               reason := "slot disabled"
               forceKill := true }]
          | none => []
        else []
      (a', events)
    else (a, [])

/-- `patchSlotState` message: optional enable and drain toggles for one
slot. -/
structure PatchSlot where
  id : DeviceID
  enabled : Option Bool
  drain : Option Bool
deriving DecidableEq, Repr

/-- `patchSlotStateInner(msg, slotState)`: apply the toggles to the slot
stored at `key` and run the device-view transition for the slot's device
ID. -/
def patchSlotStateInner (a : AgentState) (msg : PatchSlot) (key : DeviceID)
    (s : Slot) : AgentState × List ReleaseResources :=
  let e := match msg.enabled with
    | some b => { s.enabled with userEnabled := b }
    | none => s.enabled
  let e := match msg.drain with
    | some b => { e with draining := b }
    | none => e
  let s' := { s with enabled := e }
  updateSlotDeviceView { a with slotStates := minsert a.slotStates key s' }
    s.device.id

/-- `patchSlotState(msg)`: look the slot up by the patched device ID,
failing with a not-found error when it is unknown. -/
def patchSlotState (a : AgentState) (msg : PatchSlot) :
    Except String (AgentState × List ReleaseResources) :=
  match mlookup a.slotStates msg.id with
  | none => .error "bad updateSlotDeviceView on device: not found"
  | some s => .ok (patchSlotStateInner a msg msg.id s)

/-- `sproto.StartTaskContainer`: explicit placement of one container, owned
by one allocation. -/
structure StartTaskContainer where
  container : Container
  allocationID : AllocationID
deriving DecidableEq, Repr

/-- The `inner` closure of `startContainer`: validate and claim one device's
slot.  On error the state is returned as it stands (the Go code mutates in
place and does not roll back). -/
def startInner (a : AgentState) (c : Container) (deviceId : DeviceID) :
    AgentState × Option String :=
  match mlookup a.slotStates deviceId with
  | none => (a, some "cant find slot")
  | some s =>
    if !s.enabled.enabled then
      (a, some "container allocated but slot is not enabled")
    else if s.containerID ≠ none then
      (a, some "container already allocated to slot")
    else
      ({ a with
          slotStates :=
            minsert a.slotStates deviceId { s with containerID := some c.id }
          containerState := minsert a.containerState c.id c },
        none)

/-- The device loop of `startContainer`: claim each requested device's slot
in order, stopping at the first failure. -/
def startLoop (a : AgentState) (c : Container) :
    List DeviceID → AgentState × Option String
  | [] => (a, none)
  | d :: ds =>
    match startInner a c d with
    | (a', some e) => (a', some e)
    | (a', none) => startLoop a' c ds

/-- `startContainer(msg)`: claim every device of the requested container,
then record the container's owning allocation. -/
def startContainer (a : AgentState) (msg : StartTaskContainer) :
    AgentState × Option String :=
  match startLoop a msg.container (msg.container.devices.map (·.id)) with
  | (a', some e) => (a', some e)
  | (a', none) =>
    ({ a' with
        containerAllocation :=
          minsert a'.containerAllocation msg.container.id msg.allocationID },
      none)

/-- The slot-keyed device map the master holds, as built by
`checkAgentStartedDevicesMatch`. -/
def ourDeviceMap (slotStates : List (DeviceID × Slot)) :
    List (DeviceID × Device) :=
  slotStates.foldl (fun m p => minsert m p.1 p.2.device) []

/-- The device map derived from a reported `AgentStarted` inventory. -/
def theirDeviceMap (devices : List Device) : List (DeviceID × Device) :=
  devices.foldl (fun m d => minsert m d.id d) []

/-- The Go zero value of `device.Device`, read when indexing a map at a
missing key. -/
def zeroDevice : Device := { id := 0, metadata := "" }

/-- `maps.Equal`: equal size and every left entry present with the same
value on the right. -/
def mapsEqual (m₁ m₂ : List (DeviceID × Device)) : Bool :=
  m₁.length = m₂.length &&
    m₁.all (fun p => mlookup m₂ p.1 = some p.2)

/-- `checkAgentStartedDevicesMatch(agentStarted)`: reject a reconnecting
agent whose reported device inventory differs from the recorded one. -/
def checkAgentStartedDevicesMatch (a : AgentState) (reported : List Device) :
    Option String :=
  let ourDevices := ourDeviceMap a.slotStates
  let theirDevices := theirDeviceMap reported
  if ourDevices.length ≠ theirDevices.length then
    some "device count has changed"
  else if !mapsEqual ourDevices theirDevices then
    match ourDevices.find?
        (fun p => decide ((mlookup theirDevices p.1).getD zeroDevice ≠ p.2)) with
    | some _ => some "device properties have changed"
    | none => some "devices has changed"
  else none

/-- One row of `agentSnapshot.Slots` (`slotData`). -/
structure SlotData where
  Device : Device
  UserEnabled : Bool
  ContainerID : Option CID
deriving DecidableEq, Repr

/-- `agentSnapshot`: the durable projection of an agent state. -/
structure AgentSnapshot where
  AgentID : String
  UUID : String
  ResourcePoolName : String
  UserEnabled : Bool
  UserDraining : Bool
  MaxZeroSlotContainers : Nat
  Slots : List SlotData
  Containers : List CID
deriving DecidableEq, Repr

/-- `snapshot()`: serialize the slot table (device, user-enabled flag and
occupant only), the agent-level flags and the tracked container IDs. -/
def snapshot (a : AgentState) : AgentSnapshot :=
  { AgentID := a.id
    UUID := a.uuid
    ResourcePoolName := a.resourcePoolName
    UserEnabled := a.enabled
    UserDraining := a.draining
    MaxZeroSlotContainers := a.maxZeroSlotContainers
    Slots := a.slotStates.map (fun p =>
      { Device := p.2.device
        UserEnabled := p.2.enabled.userEnabled
        ContainerID := p.2.containerID })
    Containers := mkeys a.containerState }

/-- The slot written by recovery for one snapshot row: `deviceAdded` is
forced to true and the enablement flags are derived from the agent-level
`UserEnabled`/`UserDraining` columns (the per-row `UserEnabled` column is
not consulted). -/
def recoveredSlot (agentEnabled draining : Bool) (sd : SlotData) : Slot :=
  { device := sd.Device
    enabled :=
      { deviceAdded := true
        agentEnabled := agentEnabled
        userEnabled := agentEnabled
        draining := draining }
    containerID := sd.ContainerID }

/-- The slot/device rebuilding loop of `newAgentStateFromSnapshot`. -/
def rebuildSlots (slots : List SlotData) (agentEnabled draining : Bool) :
    List (DeviceID × Slot) × List (Device × Option CID) :=
  slots.foldl (fun acc sd =>
    (minsert acc.1 sd.Device.id (recoveredSlot agentEnabled draining sd),
     match sd.ContainerID with
     | some c => minsert acc.2 sd.Device (some c)
     | none => minsert acc.2 sd.Device none)) ([], [])

/-- `newAgentStateFromSnapshot(as)`: reconstruct an aggregate from its
snapshot.  The relational store's bulk container read is abstracted as
`fetch`; UUID parsing is modelled as the identity on strings.  The
container-to-allocation owner map is deliberately left empty (it is
repopulated by `restoreContainersField`). -/
def newAgentStateFromSnapshot (as : AgentSnapshot) (fetch : CID → Container) :
    AgentState :=
  let rebuilt := rebuildSlots as.Slots as.UserEnabled as.UserDraining
  let containerState := as.Containers.foldl
    (fun m c => minsert m (fetch c).id (fetch c)) []
  { id := as.AgentID
    Devices := rebuilt.2
    resourcePoolName := as.ResourcePoolName
    enabled := as.UserEnabled
    draining := as.UserDraining
    uuid := as.UUID
    maxZeroSlotContainers := as.MaxZeroSlotContainers
    slotStates := rebuilt.1
    containerAllocation := []
    containerState := containerState }

/-- The first loop of `clearUnlessRecovered`: nil out every device whose
occupant was not recovered, clearing the corresponding slot's occupant as
well.  The Go code indexes `a.slotStates[d.ID]` without a presence check;
a missing slot is a nil dereference, modelled as `none`. -/
def clearDevicesLoop (recovered : List CID) :
    List (Device × Option CID) → List (DeviceID × Slot) →
    Option (List (Device × Option CID) × List (DeviceID × Slot))
  | [], ss => some ([], ss)
  | (d, occ) :: rest, ss =>
    match occ with
    | none =>
      (clearDevicesLoop recovered rest ss).map
        (fun r => ((d, none) :: r.1, r.2))
    | some c =>
      if recovered.contains c then
        (clearDevicesLoop recovered rest ss).map
          (fun r => ((d, some c) :: r.1, r.2))
      else
        match mlookup ss d.id with
        | none => none
        | some s =>
          (clearDevicesLoop recovered rest
              (minsert ss d.id { s with containerID := none })).map
            (fun r => ((d, none) :: r.1, r.2))

/-- The slot-occupant clearing applied by the second loop of
`clearUnlessRecovered`: drop the cached occupant unless it was recovered. -/
def clearSlotOcc (recovered : List CID) (s : Slot) : Slot :=
  match s.containerID with
  | some c =>
    if recovered.contains c then s else { s with containerID := none }
  | none => s

/-- `clearUnlessRecovered(recovered)`: purge every device occupant, slot
occupant, container record and container-to-allocation entry that is not in
the recovered set.  The best-effort persistence write at the end has no
in-memory effect and is omitted. -/
def clearUnlessRecovered (a : AgentState) (recovered : List CID) :
    Option AgentState :=
  match clearDevicesLoop recovered a.Devices a.slotStates with
  | none => none
  | some (devs, ss) =>
    some { a with
      Devices := devs
      slotStates := ss.map (fun p => (p.1, clearSlotOcc recovered p.2))
      containerState :=
        a.containerState.filter (fun p => recovered.contains p.1)
      containerAllocation :=
        a.containerAllocation.filter (fun p => recovered.contains p.1) }

/-- An administrative enable/disable command for a whole agent. -/
inductive AdminOp where
  | enableAgent : AdminOp
  | disableAgent : Bool → AdminOp
deriving DecidableEq, Repr

/-- Dispatch one administrative command to `enable`/`disable`. -/
def applyAdmin (a : AgentState) : AdminOp → AgentState
  | .enableAgent => enable a
  | .disableAgent drain => disable a drain

/-!
Aliasing model for `deepCopy`.  In Go the slot records live behind pointers
in `slotStates`, and `deepCopy` stores the same `slotStates` map in the
copy, while `Devices` and `containerState` are cloned (`maps.Clone`); no
code writes through a `*cproto.ID` or pre-existing `*cproto.Container`
value, so those maps behave as values.  To make the sharing observable the
slot records are placed in an explicit store (`List Slot`) and the agent
holds references (indices) into it.
-/

/-- `agentState` with slot records held by reference into a slot store. -/
structure AgentStateH where
  id : String
  Devices : List (Device × Option CID)
  resourcePoolName : String
  enabled : Bool
  draining : Bool
  maxZeroSlotContainers : Nat
  slotRefs : List (DeviceID × Nat)
  containerAllocation : List (CID × AllocationID)
  containerState : List (CID × Container)
deriving DecidableEq, Repr

/-- Dereference the slot stored for a device ID. -/
def readSlotH (store : List Slot) (a : AgentStateH) (deviceID : DeviceID) :
    Option Slot :=
  (mlookup a.slotRefs deviceID).bind (fun r => store[r]?)

/-- `deepCopy`: value-copies of `Devices` and `containerState`, the same
slot references (the Go code stores the original `slotStates` map in the
copy), and no `containerAllocation` (the field is absent from the Go
copy literal, so it is the nil map). -/
def deepCopyH (a : AgentStateH) : AgentStateH :=
  { id := a.id
    Devices := a.Devices
    resourcePoolName := a.resourcePoolName
    enabled := a.enabled
    draining := a.draining
    maxZeroSlotContainers := a.maxZeroSlotContainers
    slotRefs := a.slotRefs
    containerAllocation := []
    containerState := a.containerState }

/-- `containerStateChanged` in the referenced model: update each occupied
slot's cached occupant through its reference (clearing it on termination),
then install or drop the container record. -/
def containerStateChangedH (store : List Slot) (a : AgentStateH)
    (c : Container) : List Slot × AgentStateH :=
  let store := c.devices.foldl (fun st d =>
    match mlookup a.slotRefs d.id with
    | none => st
    | some r =>
      match st[r]? with
      | none => st
      | some s =>
        let s := { s with containerID := some c.id }
        let s :=
          if c.state = CState.terminated then { s with containerID := none }
          else s
        st.set r s) store
  let cs := minsert a.containerState c.id c
  let cs := if c.state = CState.terminated then merase cs c.id else cs
  (store, { a with containerState := cs })

/-- `deallocateContainer` in the referenced model: touches only the device
view and the container records, never the slot store. -/
def deallocateContainerH (a : AgentStateH) (id : CID) : AgentStateH :=
  { a with
    containerState := merase a.containerState id
    Devices := a.Devices.map (fun p =>
      if p.2 = some id then (p.1, none) else (p.1, p.2)) }

/-!  Claim theorems.  -/

/-- Two sample devices used by the concrete witness states. -/
def exDev1 : Device := { id := 1, metadata := "gpu" }

def exDev2 : Device := { id := 2, metadata := "gpu" }

/-- A fully-enabled slot holding the given occupant. -/
def exSlot (d : Device) (occ : Option CID) : Slot :=
  { device := d
    enabled :=
      { deviceAdded := true, agentEnabled := true, userEnabled := true
        draining := false }
    containerID := occ }

/-- An enabled two-device agent with one device occupied by `c1`. -/
def exEnabled : AgentState :=
  { id := "agent"
    Devices := [(exDev1, some "c1"), (exDev2, none)]
    resourcePoolName := "default"
    enabled := true
    draining := false
    uuid := "u"
    maxZeroSlotContainers := 1
    slotStates := [(1, exSlot exDev1 (some "c1")), (2, exSlot exDev2 none)]
    containerAllocation := [("c1", "alloc1")]
    containerState := [("c1", { id := "c1", state := .running
                                devices := [exDev1] })] }

def exDisabled : AgentState := disable exEnabled false

def exDraining : AgentState := disable exEnabled true

/-- C3: slot capacity accounting.  A disabled agent (`enabled = false`,
`draining = false`) reports `numSlots = 0` and `numEmptySlots = 0`; a
draining agent reports `numSlots = numUsedSlots` and `numEmptySlots = 0`;
otherwise `numSlots` is the size of the device view and `numEmptySlots =
numSlots - numUsedSlots`. -/
theorem capacity_accounting_cases (a : AgentState) :
    (a.enabled = false → a.draining = false →
      numSlots a = 0 ∧ numEmptySlots a = 0) ∧
    (a.draining = true →
      numSlots a = numUsedSlots a ∧ numEmptySlots a = 0) ∧
    (a.enabled = true → a.draining = false →
      numSlots a = a.Devices.length ∧
      numEmptySlots a = numSlots a - numUsedSlots a) := by
  refine ⟨fun h1 h2 => ?_, fun h1 => ?_, fun h1 h2 => ?_⟩
  · simp [numSlots, numEmptySlots, h1, h2]
  · simp [numSlots, numEmptySlots, h1]
  · simp [numSlots, numEmptySlots, h1, h2]

/-- Witness for C3 at three concrete agent states. -/
theorem capacity_accounting_cases_witness :
    (numSlots exDisabled = 0 ∧ numEmptySlots exDisabled = 0) ∧
    (numSlots exDraining = numUsedSlots exDraining ∧
      numEmptySlots exDraining = 0) ∧
    (numSlots exEnabled = exEnabled.Devices.length ∧
      numEmptySlots exEnabled = numSlots exEnabled - numUsedSlots exEnabled) :=
  ⟨(capacity_accounting_cases exDisabled).1 rfl rfl,
   (capacity_accounting_cases exDraining).2.1 rfl,
   (capacity_accounting_cases exEnabled).2.2 rfl rfl⟩

/-- C10: in every state reachable from a fresh agent state by `enable` and
`disable(drain)` calls, `draining` implies not `enabled` (stated as
`draining && enabled = false`); `enable` always sets `enabled := true` and
`draining := false`, so enabling a draining agent cancels the drain and
restores the full device view as reported capacity. -/
theorem admin_draining_implies_disabled (i : String) (m : Nat)
    (ops : List AdminOp) :
    ((ops.foldl applyAdmin (newAgentState i m)).draining &&
      (ops.foldl applyAdmin (newAgentState i m)).enabled) = false ∧
    (∀ a : AgentState,
      (enable a).enabled = true ∧ (enable a).draining = false ∧
      numSlots (enable a) = (enable a).Devices.length) := by
  constructor
  · suffices hinv : ∀ a : AgentState, (a.draining && a.enabled) = false →
        ((ops.foldl applyAdmin a).draining &&
          (ops.foldl applyAdmin a).enabled) = false by
      exact hinv _ (by simp [newAgentState])
    induction ops with
    | nil => intro a h; simpa using h
    | cons op rest ih =>
      intro a h
      simp only [List.foldl_cons]
      apply ih
      cases op with
      | enableAgent => simp [applyAdmin, enable]
      | disableAgent d => simp [applyAdmin, disable]
  · intro a
    exact ⟨rfl, rfl, by simp [numSlots, enable]⟩

/-- C8: `deallocateContainer` removes the container record, clears exactly
the devices occupied by the container, leaves everything else unchanged, is
idempotent, and is a no-op on a container unknown to the aggregate. -/
theorem deallocateContainer_spec (a : AgentState) (id : CID)
    (hn : (mkeys a.containerState).Nodup) :
    (∀ c, mlookup (deallocateContainer a id).containerState c =
      if c = id then none else mlookup a.containerState c) ∧
    (∀ d, mlookup (deallocateContainer a id).Devices d =
      (mlookup a.Devices d).map
        (fun occ => if occ = some id then none else occ)) ∧
    deallocateContainer (deallocateContainer a id) id =
      deallocateContainer a id ∧
    (mlookup a.containerState id = none →
      (∀ p ∈ a.Devices, p.2 ≠ some id) →
      deallocateContainer a id = a) := by
  have hfun : (fun p : Device × Option CID =>
      if p.2 = some id then (p.1, none) else (p.1, p.2)) =
      fun p : Device × Option CID =>
        (p.1, (fun _ occ => if occ = some id then none else occ) p.1 p.2) := by
    funext p
    by_cases h : p.2 = some id <;> simp [h]
  refine ⟨fun c => ?_, fun d => ?_, ?_, fun h1 h2 => ?_⟩
  · by_cases hc : c = id
    · subst hc
      simpa [deallocateContainer] using mlookup_merase_self a.containerState c hn
    · simpa [deallocateContainer, hc] using
        mlookup_merase_ne a.containerState id c hc
  · show mlookup (a.Devices.map _) d = _
    rw [hfun]
    exact mlookup_map_value a.Devices
      (fun _ occ => if occ = some id then none else occ) d
  · have hcs : merase (merase a.containerState id) id =
        merase a.containerState id :=
      merase_eq_self_of_mlookup_none _ _ (mlookup_merase_self _ _ hn)
    have hds : (a.Devices.map (fun p : Device × Option CID =>
        if p.2 = some id then (p.1, none) else (p.1, p.2))).map
          (fun p : Device × Option CID =>
            if p.2 = some id then (p.1, none) else (p.1, p.2)) =
        a.Devices.map (fun p : Device × Option CID =>
          if p.2 = some id then (p.1, none) else (p.1, p.2)) := by
      rw [List.map_map]
      apply List.map_congr_left
      intro p _
      by_cases h : p.2 = some id <;> simp [h]
    simp [deallocateContainer, hcs, hds]
  · have hcs : merase a.containerState id = a.containerState :=
      merase_eq_self_of_mlookup_none _ _ h1
    have hds : a.Devices.map (fun p : Device × Option CID =>
        if p.2 = some id then (p.1, none) else (p.1, p.2)) = a.Devices := by
      have hpt : ∀ p ∈ a.Devices,
          (if p.2 = some id then (p.1, none) else (p.1, p.2)) = p := by
        intro p hp
        simp [h2 p hp]
      rw [List.map_congr_left hpt, List.map_id']
    simp [deallocateContainer, hcs, hds]

/-- Witness for C8 at a concrete state: deallocating `c1` drops its record
and frees exactly the device it held. -/
theorem deallocateContainer_spec_witness :
    mlookup (deallocateContainer exEnabled "c1").containerState "c1" = none ∧
    mlookup (deallocateContainer exEnabled "c1").Devices exDev1 = some none ∧
    mlookup (deallocateContainer exEnabled "c1").Devices exDev2 = some none := by
  have h := deallocateContainer_spec exEnabled "c1" (by decide)
  refine ⟨by simpa using h.1 "c1", ?_, ?_⟩
  · rw [h.2.1 exDev1]
    decide
  · rw [h.2.1 exDev2]
    decide

/-- C4: patching an occupied slot to disabled (`enabled := false`) with
`drain := false` publishes exactly one force-release event to the occupant's
owning allocation, with reason "slot disabled" and `forceKill = true`;
patching the same slot to disabled with `drain := true` publishes no event
and removes neither the device from the device view nor the occupant from
the slot. -/
theorem patchSlot_disable_release (a : AgentState) (did : DeviceID) (s : Slot)
    (c : CID) (aid : AllocationID)
    (hs : mlookup a.slotStates did = some s)
    (hdev : s.device.id = did)
    (hc : s.containerID = some c)
    (haid : mlookup a.containerAllocation c = some aid) :
    (patchSlotStateInner a
        { id := did, enabled := some false, drain := some false } did s).2 =
      [{ allocationID := aid, reason := "slot disabled", forceKill := true }] ∧
    (patchSlotStateInner a
        { id := did, enabled := some false, drain := some true } did s).2 = [] ∧
    (patchSlotStateInner a
        { id := did, enabled := some false, drain := some true } did s).1.Devices
      = a.Devices ∧
    mlookup (patchSlotStateInner a
        { id := did, enabled := some false, drain := some true } did s).1.slotStates
      did = some { s with enabled :=
        { s.enabled with userEnabled := false, draining := true } } := by
  refine ⟨?_, ?_, ?_, ?_⟩
  · simp only [patchSlotStateInner, hdev, updateSlotDeviceView, mlookup_minsert,
      if_pos rfl, SlotEnabled.enabled]
    cases hda : s.enabled.deviceAdded <;>
      simp [hda, hc, haid, removeDevice, addDevice]
  · simp only [patchSlotStateInner, hdev, updateSlotDeviceView, mlookup_minsert,
      if_pos rfl, SlotEnabled.enabled]
    simp
  · simp only [patchSlotStateInner, hdev, updateSlotDeviceView, mlookup_minsert,
      if_pos rfl, SlotEnabled.enabled]
    simp
  · simp only [patchSlotStateInner, hdev, updateSlotDeviceView, mlookup_minsert,
      if_pos rfl, SlotEnabled.enabled]
    simp [mlookup_minsert]

/-- Witness for C4 at a concrete occupied slot. -/
theorem patchSlot_disable_release_witness :
    (patchSlotStateInner exEnabled
        { id := 1, enabled := some false, drain := some false } 1
        (exSlot exDev1 (some "c1"))).2 =
      [{ allocationID := "alloc1", reason := "slot disabled"
         forceKill := true }] ∧
    (patchSlotStateInner exEnabled
        { id := 1, enabled := some false, drain := some true } 1
        (exSlot exDev1 (some "c1"))).2 = [] := by
  have h := patchSlot_disable_release exEnabled 1 (exSlot exDev1 (some "c1"))
    "c1" "alloc1" (by decide) (by decide) (by decide) (by decide)
  exact ⟨h.1, h.2.1⟩

/-- The master-side device map has no duplicate keys. -/
theorem ourDeviceMap_nodup (ss : List (DeviceID × Slot)) :
    (mkeys (ourDeviceMap ss)).Nodup :=
  mkeys_foldl_minsert_nodup ss (·.1) (·.2.device) [] (by simp [mkeys])

/-- The reported device map has no duplicate keys. -/
theorem theirDeviceMap_nodup (ds : List Device) :
    (mkeys (theirDeviceMap ds)).Nodup :=
  mkeys_foldl_minsert_nodup ds (·.id) (fun d => d) [] (by simp [mkeys])

/-- C9: `checkAgentStartedDevicesMatch` accepts the reported inventory if
and only if the reported device map agrees with the recorded one at every
device ID (same IDs, same identity/properties); any count or per-device
difference yields an error.  The function reads the aggregate and returns
only a possible error, so it never mutates the state. -/
theorem checkAgentStartedDevicesMatch_none_iff (a : AgentState)
    (reported : List Device) :
    checkAgentStartedDevicesMatch a reported = none ↔
      ∀ did, mlookup (ourDeviceMap a.slotStates) did =
        mlookup (theirDeviceMap reported) did := by
  have hn₁ := ourDeviceMap_nodup a.slotStates
  have hn₂ := theirDeviceMap_nodup reported
  constructor
  · intro hnone did
    simp only [checkAgentStartedDevicesMatch] at hnone
    by_cases hlen : (ourDeviceMap a.slotStates).length =
        (theirDeviceMap reported).length
    · rw [if_neg (by simpa using hlen)] at hnone
      cases hb : mapsEqual (ourDeviceMap a.slotStates)
          (theirDeviceMap reported) with
      | false =>
        rw [hb] at hnone
        simp only [Bool.not_false, if_true] at hnone
        cases hfind : (ourDeviceMap a.slotStates).find?
            (fun p => decide ((mlookup (theirDeviceMap reported) p.1).getD
              zeroDevice ≠ p.2)) with
        | some p =>
          rw [hfind] at hnone
          exact absurd hnone (by simp)
        | none =>
          rw [hfind] at hnone
          exact absurd hnone (by simp)
      | true =>
        have hall : ∀ p ∈ ourDeviceMap a.slotStates,
            mlookup (theirDeviceMap reported) p.1 = some p.2 := by
          rw [mapsEqual, Bool.and_eq_true] at hb
          have := hb.2
          rw [List.all_eq_true] at this
          intro p hp
          have hv := this p hp
          simpa using hv
        cases hl : mlookup (ourDeviceMap a.slotStates) did with
        | some v =>
          rw [hall _ (mem_of_mlookup_eq_some _ _ _ hl)]
        | none =>
          cases hr : mlookup (theirDeviceMap reported) did with
          | none => rfl
          | some w =>
            exfalso
            have hsub : mkeys (ourDeviceMap a.slotStates) ⊆
                mkeys (theirDeviceMap reported) := by
              intro k hk
              rw [← mlookup_isSome_iff] at hk ⊢
              obtain ⟨v, hv⟩ := Option.isSome_iff_exists.1 hk
              rw [hall _ (mem_of_mlookup_eq_some _ _ _ hv)]
              rfl
            have hperm : List.Perm (mkeys (ourDeviceMap a.slotStates))
                (mkeys (theirDeviceMap reported)) :=
              (List.subperm_of_subset hn₁ hsub).perm_of_length_le
                (by simpa [mkeys] using hlen.ge)
            have hmem : did ∈ mkeys (ourDeviceMap a.slotStates) :=
              hperm.mem_iff.2 (by
                rw [← mlookup_isSome_iff, hr]
                rfl)
            rw [← mlookup_isSome_iff, hl] at hmem
            simp at hmem
    · rw [if_pos (by simpa using hlen)] at hnone
      exact absurd hnone (by simp)
  · intro h
    have hlen : (ourDeviceMap a.slotStates).length =
        (theirDeviceMap reported).length :=
      length_eq_of_mlookup_eq _ _ hn₁ hn₂ h
    have heq : mapsEqual (ourDeviceMap a.slotStates)
        (theirDeviceMap reported) = true := by
      rw [mapsEqual, Bool.and_eq_true]
      refine ⟨by simpa using hlen, ?_⟩
      rw [List.all_eq_true]
      intro p hp
      have hv : mlookup (ourDeviceMap a.slotStates) p.1 = some p.2 :=
        mlookup_eq_of_mem_nodup _ _ _ hn₁ hp
      rw [← h p.1]
      simpa using hv
    simp only [checkAgentStartedDevicesMatch]
    rw [if_neg (by simpa using hlen), if_neg (by simp [heq])]

/-- A concrete check that a matching inventory is accepted and a changed one
rejected. -/
theorem checkAgentStartedDevicesMatch_example :
    checkAgentStartedDevicesMatch exEnabled [exDev1, exDev2] = none ∧
    checkAgentStartedDevicesMatch exEnabled [exDev1] ≠ none := by
  constructor
  · decide
  · decide

/-- The devices of the view holding no container, in view order. -/
def freeDevs (m : List (Device × Option CID)) : List Device :=
  (m.filter (fun p => p.2 = none)).map (·.1)

/-- The collection loop gathers the first `k` free devices of the view. -/
theorem collectFreeAux_eq (k : Nat) (l : List (Device × Option CID))
    (acc : List Device) (h : acc.length < k) :
    collectFreeAux k l acc = (acc ++ freeDevs l).take k := by
  induction l generalizing acc with
  | nil =>
    simp only [collectFreeAux, freeDevs, List.filter_nil, List.map_nil,
      List.append_nil]
    exact (List.take_of_length_le h.le).symm
  | cons hd r ih =>
    obtain ⟨d, occ⟩ := hd
    cases occ with
    | none =>
      have hfree : freeDevs ((d, none) :: r) = d :: freeDevs r := by
        simp [freeDevs]
      show (if (acc ++ [d]).length = k then acc ++ [d]
            else collectFreeAux k r (acc ++ [d])) = _
      by_cases hlen : (acc ++ [d]).length = k
      · rw [if_pos hlen, hfree,
          show acc ++ d :: freeDevs r = (acc ++ [d]) ++ freeDevs r by simp,
          ← hlen, List.take_left]
      · have hlt : (acc ++ [d]).length < k := by
          simp only [List.length_append, List.length_cons,
            List.length_nil] at hlen ⊢
          omega
        rw [if_neg hlen, ih _ hlt, hfree,
          show acc ++ d :: freeDevs r = (acc ++ [d]) ++ freeDevs r by simp]
    | some c =>
      have hfree : freeDevs ((d, some c) :: r) = freeDevs r := by
        simp [freeDevs]
      show (if acc.length = k then acc else collectFreeAux k r acc) = _
      rw [if_neg (Nat.ne_of_lt h), ih _ h, hfree]

/-- A device listed as free really maps to a nil occupant. -/
theorem mlookup_of_mem_freeDevs (m : List (Device × Option CID))
    (hnd : (mkeys m).Nodup) (d : Device) (hd : d ∈ freeDevs m) :
    mlookup m d = some none := by
  rcases List.mem_map.1 hd with ⟨p, hp, hpd⟩
  rcases List.mem_filter.1 hp with ⟨hpm, hpe⟩
  have hocc : p.2 = none := by simpa using hpe
  have : p = (d, none) := by
    cases p
    simp only at hpd hocc
    rw [hpd, hocc]
  rw [this] at hpm
  exact mlookup_eq_of_mem_nodup m d none hnd hpm

/-- Claiming a device list points exactly those devices at the container. -/
theorem mlookup_claimAll (m : List (Device × Option CID)) (ds : List Device)
    (cid : CID) (d : Device) :
    mlookup (claimAll m ds cid) d =
      if d ∈ ds then some (some cid) else mlookup m d := by
  induction ds generalizing m with
  | nil => simp [claimAll]
  | cons d₀ ds ih =>
    show mlookup (claimAll (minsert m d₀ (some cid)) ds cid) d = _
    rw [ih]
    by_cases hds : d ∈ ds
    · simp [hds]
    · by_cases hd0 : d = d₀
      · simp [hds, hd0, mlookup_minsert]
      · simp [hds, hd0, mlookup_minsert]

/-- C5: `allocateFreeDevices(k, cid)` with `k > 0` always registers a
container record for `cid`; with fewer than `k` free devices it fails with
the capacity error and claims no device (the state is exactly the original
plus the empty container record); otherwise it claims exactly `k`
previously-free devices for `cid`, records the chosen device set on the
container record, returns that set, and touches no other device or
container record. -/
theorem allocateFreeDevices_spec (a : AgentState) (k : Nat) (cid : CID)
    (hk : 0 < k) (hnd : (mkeys a.Devices).Nodup) :
    (mlookup (allocateFreeDevices a k cid).1.containerState cid).isSome ∧
    ((freeDevs a.Devices).length < k →
      allocateFreeDevices a k cid =
        ({ a with containerState := minsert a.containerState cid (emptyContainerRecord cid) },
         .error "not enough devices")) ∧
    (k ≤ (freeDevs a.Devices).length →
      ∃ chosen,
        (allocateFreeDevices a k cid).2 = .ok chosen ∧
        chosen.length = k ∧
        (∀ d ∈ chosen, mlookup a.Devices d = some none) ∧
        (∀ d, mlookup (allocateFreeDevices a k cid).1.Devices d =
          if d ∈ chosen then some (some cid) else mlookup a.Devices d) ∧
        mlookup (allocateFreeDevices a k cid).1.containerState cid =
          some { emptyContainerRecord cid with devices := chosen } ∧
        (∀ c, c ≠ cid →
          mlookup (allocateFreeDevices a k cid).1.containerState c =
            mlookup a.containerState c)) := by
  have hcoll : collectFreeAux k a.Devices [] = (freeDevs a.Devices).take k := by
    simpa using collectFreeAux_eq k a.Devices [] (by simpa using hk)
  refine ⟨?_, ?_, ?_⟩
  · unfold allocateFreeDevices
    rw [if_neg hk.ne']
    simp only [hcoll]
    by_cases hlen : ((freeDevs a.Devices).take k).length ≠ k
    · rw [if_pos hlen]
      simp [mlookup_minsert]
    · rw [if_neg hlen]
      simp [mlookup_minsert]
  · intro hlt
    unfold allocateFreeDevices
    rw [if_neg hk.ne']
    simp only [hcoll]
    rw [if_pos (by
      simp only [List.length_take]
      omega)]
  · intro hge
    have hlen : ((freeDevs a.Devices).take k).length = k := by
      simp [List.length_take, Nat.min_eq_left hge]
    refine ⟨(freeDevs a.Devices).take k, ?_, hlen, ?_, ?_, ?_, ?_⟩
    · unfold allocateFreeDevices
      rw [if_neg hk.ne']
      simp only [hcoll]
      rw [if_neg (by simp [hlen])]
    · intro d hd
      exact mlookup_of_mem_freeDevs a.Devices hnd d (List.mem_of_mem_take hd)
    · intro d
      unfold allocateFreeDevices
      rw [if_neg hk.ne']
      simp only [hcoll]
      rw [if_neg (by simp [hlen])]
      exact mlookup_claimAll _ _ _ _
    · unfold allocateFreeDevices
      rw [if_neg hk.ne']
      simp only [hcoll]
      rw [if_neg (by simp [hlen])]
      simp [mlookup_minsert]
    · intro c hc
      unfold allocateFreeDevices
      rw [if_neg hk.ne']
      simp only [hcoll]
      rw [if_neg (by simp [hlen])]
      simp [mlookup_minsert, hc]

/-- Witness for C5: on the concrete two-device agent (one free device),
requesting one device succeeds and claims the free device; requesting two
fails, claims nothing, and still registers the record. -/
theorem allocateFreeDevices_spec_witness :
    (allocateFreeDevices exEnabled 2 "c2").2 = .error "not enough devices" ∧
    (allocateFreeDevices exEnabled 2 "c2").1.Devices = exEnabled.Devices ∧
    (mlookup (allocateFreeDevices exEnabled 2 "c2").1.containerState
      "c2").isSome ∧
    (allocateFreeDevices exEnabled 1 "c2").2 = .ok [exDev2] := by
  have h2 := allocateFreeDevices_spec exEnabled 2 "c2" (by decide) (by decide)
  have hfail := h2.2.1 (by decide)
  refine ⟨?_, ?_, h2.1, ?_⟩
  · rw [hfail]
  · rw [hfail]
  · rfl

/-- `startInner` never touches the container-to-allocation map. -/
theorem startInner_containerAllocation (a : AgentState) (c : Container)
    (d : DeviceID) :
    (startInner a c d).1.containerAllocation = a.containerAllocation := by
  unfold startInner
  cases mlookup a.slotStates d with
  | none => rfl
  | some s =>
    dsimp only
    split
    · rfl
    · split
      · rfl
      · rfl

/-- The whole device loop never touches the container-to-allocation map. -/
theorem startLoop_containerAllocation (c : Container) (ds : List DeviceID)
    (a : AgentState) :
    (startLoop a c ds).1.containerAllocation = a.containerAllocation := by
  induction ds generalizing a with
  | nil => rfl
  | cons d ds ih =>
    have hinner := startInner_containerAllocation a c d
    unfold startLoop
    rcases h : startInner a c d with ⟨a', e⟩
    rw [h] at hinner
    cases e with
    | some err => simpa using hinner
    | none =>
      dsimp only
      rw [ih a']
      exact hinner

/-- A failing `startInner` step leaves the state as it received it. -/
theorem startInner_error_unchanged (a : AgentState) (c : Container)
    (d : DeviceID) (h : (startInner a c d).2.isSome = true) :
    (startInner a c d).1 = a := by
  revert h
  unfold startInner
  cases mlookup a.slotStates d with
  | none => intro _; rfl
  | some s =>
    dsimp only
    split
    · intro _; rfl
    · split
      · intro _; rfl
      · intro h; simp at h

/-- C2 (amended): when `startContainer` returns an error the
container-to-allocation map is unchanged, and when the failure occurs on
the first requested device the whole aggregate is unchanged; devices
validated before the offending one, however, keep their freshly-claimed
slots (partial allocation is possible, see the counterexample). -/
theorem startContainer_error_behavior (a : AgentState)
    (msg : StartTaskContainer) :
    ((startContainer a msg).2.isSome = true →
      (startContainer a msg).1.containerAllocation = a.containerAllocation) ∧
    (∀ d ds, msg.container.devices.map (·.id) = d :: ds →
      (startInner a msg.container d).2.isSome = true →
      startContainer a msg = (a, (startInner a msg.container d).2)) := by
  constructor
  · intro herr
    have hl := startLoop_containerAllocation msg.container
      (msg.container.devices.map (·.id)) a
    unfold startContainer at herr ⊢
    rcases h : startLoop a msg.container (msg.container.devices.map (·.id))
      with ⟨a', e⟩
    rw [h] at hl herr ⊢
    cases e with
    | some err => simpa using hl
    | none => simp at herr
  · intro d ds hds herr
    have hun := startInner_error_unchanged a msg.container d herr
    unfold startContainer
    rw [hds]
    rcases h : startInner a msg.container d with ⟨a₁, e⟩
    rw [h] at hun herr
    cases e with
    | none => simp at herr
    | some err =>
      dsimp only at hun ⊢
      rw [show startLoop a msg.container (d :: ds) = (a₁, some err) by
        unfold startLoop
        rw [h]]
      rw [hun]

/-- A placement request for both devices of `exEnabled`; the second
requested device's slot is already occupied, so `startContainer` fails
after claiming the first. -/
def exMsgBoth : StartTaskContainer :=
  { container := { id := "c9", state := .assigned
                   devices := [exDev2, exDev1] }
    allocationID := "a9" }

/-- A placement request whose first (only) device is already occupied. -/
def exMsgFirst : StartTaskContainer :=
  { container := { id := "c9", state := .assigned, devices := [exDev1] }
    allocationID := "a9" }

/-- C2 counterexample: `startContainer` on `exEnabled` with devices
`[exDev2, exDev1]` fails (slot 1 is occupied) yet slot 2 — validated before
the failure — now holds the new container: the aggregate is not left
unchanged on error. -/
theorem startContainer_error_mutates :
    (startContainer exEnabled exMsgBoth).2.isSome = true ∧
    mlookup (startContainer exEnabled exMsgBoth).1.slotStates 2 ≠
      mlookup exEnabled.slotStates 2 := by
  constructor
  · rfl
  · decide

/-- Witness for the amended C2 at concrete failing inputs. -/
theorem startContainer_error_behavior_witness :
    (startContainer exEnabled exMsgBoth).1.containerAllocation =
      exEnabled.containerAllocation ∧
    startContainer exEnabled exMsgFirst =
      (exEnabled, (startInner exEnabled exMsgFirst.container 1).2) :=
  ⟨(startContainer_error_behavior exEnabled exMsgBoth).1 rfl,
   (startContainer_error_behavior exEnabled exMsgFirst).2 1 [] rfl rfl⟩

/-- The device-occupant filter applied by reconciliation. -/
def keepOcc (recovered : List CID) : Option CID → Option CID
  | some c => if recovered.contains c then some c else none
  | none => none

/-- The first reconciliation loop succeeds on a view whose occupants agree
with the slot table, rewrites each occupant through `keepOcc`, and changes
slots only in ways invisible after `clearSlotOcc`. -/
theorem clearDevicesLoop_spec (rec : List CID)
    (devs : List (Device × Option CID)) (ss : List (DeviceID × Slot))
    (hsync : ∀ p ∈ devs, ∃ s,
      mlookup ss p.1.id = some s ∧ s.containerID = p.2)
    (hids : (devs.map (fun p => p.1.id)).Nodup) :
    ∃ ss₁, clearDevicesLoop rec devs ss =
        some (devs.map (fun p => (p.1, keepOcc rec p.2)), ss₁) ∧
      ∀ did, (mlookup ss₁ did).map (clearSlotOcc rec) =
        (mlookup ss did).map (clearSlotOcc rec) := by
  induction devs generalizing ss with
  | nil => exact ⟨ss, rfl, fun did => rfl⟩
  | cons p devs ih =>
    obtain ⟨d, occ⟩ := p
    simp only [List.map_cons, List.nodup_cons] at hids
    cases occ with
    | none =>
      obtain ⟨ss₁, hloop, hpt⟩ := ih ss
        (fun q hq => hsync q (List.mem_cons.2 (Or.inr hq))) hids.2
      refine ⟨ss₁, ?_, hpt⟩
      simp only [clearDevicesLoop, hloop]
      rfl
    | some c =>
      by_cases hrec : rec.contains c = true
      · obtain ⟨ss₁, hloop, hpt⟩ := ih ss
          (fun q hq => hsync q (List.mem_cons.2 (Or.inr hq))) hids.2
        refine ⟨ss₁, ?_, hpt⟩
        have hko : keepOcc rec (some c) = some c := by
          simp only [keepOcc]
          rw [if_pos hrec]
        simp only [clearDevicesLoop]
        rw [if_pos hrec, hloop, List.map_cons, hko]
        rfl
      · obtain ⟨s, hls, hsc⟩ := hsync (d, some c) (List.mem_cons.2 (Or.inl rfl))
        have hsync' : ∀ q ∈ devs, ∃ s',
            mlookup (minsert ss d.id { s with containerID := none }) q.1.id =
              some s' ∧ s'.containerID = q.2 := by
          intro q hq
          obtain ⟨s', hq1, hq2⟩ := hsync q (List.mem_cons.2 (Or.inr hq))
          refine ⟨s', ?_, hq2⟩
          rw [mlookup_minsert, if_neg ?_]
          · exact hq1
          · intro hcontra
            exact hids.1 (List.mem_map.2 ⟨q, hq, hcontra⟩)
        obtain ⟨ss₁, hloop, hpt⟩ :=
          ih (minsert ss d.id { s with containerID := none }) hsync' hids.2
        refine ⟨ss₁, ?_, ?_⟩
        · have hko : keepOcc rec (some c) = none := by
            simp only [keepOcc]
            rw [if_neg hrec]
          simp only [clearDevicesLoop]
          rw [if_neg hrec, hls]
          simp only [hloop, List.map_cons, hko]
          rfl
        · intro did
          rw [hpt did, mlookup_minsert]
          by_cases hdid : did = d.id
          · rw [if_pos hdid, hdid, hls]
            simp only [Option.map_some']
            have h1 : clearSlotOcc rec { s with containerID := none } =
                { s with containerID := none } := rfl
            have h2 : clearSlotOcc rec s = { s with containerID := none } := by
              simp only [clearSlotOcc, hsc]
              rw [if_neg hrec]
            rw [h1, h2]
          · rw [if_neg hdid]

/-- C7 (amended): on an aggregate whose device-view occupants agree with
the slot table (and whose listed device IDs are distinct — both invariants
of reachable states), `clearUnlessRecovered(R)` clears exactly the device
occupants, slot occupants, container records and allocation entries whose
container is not in `R`, and leaves every entry whose container is in `R`
untouched.  Without the agreement hypothesis a slot whose own occupant is
in `R` can still be cleared by the device loop (see the counterexample). -/
theorem clearUnlessRecovered_spec (a : AgentState) (rec : List CID)
    (hsync : ∀ p ∈ a.Devices, ∃ s,
      mlookup a.slotStates p.1.id = some s ∧ s.containerID = p.2)
    (hids : (a.Devices.map (fun p => p.1.id)).Nodup) :
    ∃ a', clearUnlessRecovered a rec = some a' ∧
      (∀ d, mlookup a'.Devices d =
        (mlookup a.Devices d).map (keepOcc rec)) ∧
      (∀ did, mlookup a'.slotStates did =
        (mlookup a.slotStates did).map (clearSlotOcc rec)) ∧
      (∀ c, mlookup a'.containerState c =
        if rec.contains c then mlookup a.containerState c else none) ∧
      (∀ c, mlookup a'.containerAllocation c =
        if rec.contains c then mlookup a.containerAllocation c else none) := by
  obtain ⟨ss₁, hloop, hpt⟩ := clearDevicesLoop_spec rec a.Devices a.slotStates
    hsync hids
  refine ⟨{ a with
      Devices := a.Devices.map (fun p => (p.1, keepOcc rec p.2))
      slotStates := ss₁.map (fun p => (p.1, clearSlotOcc rec p.2))
      containerState :=
        a.containerState.filter (fun p => rec.contains p.1)
      containerAllocation :=
        a.containerAllocation.filter (fun p => rec.contains p.1) },
    ?_, ?_, ?_, ?_, ?_⟩
  · unfold clearUnlessRecovered
    rw [hloop]
  · intro d
    exact mlookup_map_value a.Devices (fun _ occ => keepOcc rec occ) d
  · intro did
    rw [mlookup_map_value ss₁ (fun _ s => clearSlotOcc rec s) did]
    exact hpt did
  · intro c
    exact mlookup_filter_key a.containerState (fun c => rec.contains c) c
  · intro c
    exact mlookup_filter_key a.containerAllocation (fun c => rec.contains c) c

/-- An aggregate whose device view and slot table disagree: the view says
device 1 is held by `c1`, while the slot's own cached occupant is `c2`. -/
def exA7 : AgentState :=
  { exEnabled with
    Devices := [(exDev1, some "c1")]
    slotStates := [(1, exSlot exDev1 (some "c2"))]
    containerAllocation := []
    containerState := [] }

/-- C7 counterexample: reconciling `exA7` with recovered set `{c2}` clears
the slot whose occupant `c2` IS in the recovered set (because the device
view's occupant `c1` is not), so recovered entries are not always left
untouched. -/
theorem clearUnlessRecovered_clears_recovered_slot :
    (clearUnlessRecovered exA7 ["c2"]).map
        (fun a' => (mlookup a'.slotStates 1).map (fun s => s.containerID)) =
      some (some none) ∧
    (mlookup exA7.slotStates 1).map (fun s => s.containerID) =
      some (some "c2") := by
  constructor
  · decide
  · decide

/-- Witness for the amended C7 on the consistent aggregate `exEnabled` with
recovered set `{c1}`: the recovered container keeps its device and slot,
the unrecovered-free device stays free. -/
theorem clearUnlessRecovered_spec_witness :
    ∃ a', clearUnlessRecovered exEnabled ["c1"] = some a' ∧
      mlookup a'.Devices exDev1 = some (some "c1") ∧
      (mlookup a'.slotStates 1).map (fun s => s.containerID) =
        some (some "c1") := by
  obtain ⟨a', heq, hdev, hslot, _, _⟩ :=
    clearUnlessRecovered_spec exEnabled ["c1"]
      (by
        intro p hp
        rcases List.mem_cons.1 hp with h | hp2
        · exact ⟨exSlot exDev1 (some "c1"), by rw [h]; decide,
            by rw [h]; decide⟩
        · rcases List.mem_cons.1 hp2 with h | h
          · exact ⟨exSlot exDev2 none, by rw [h]; decide, by rw [h]; decide⟩
          · simp at h)
      (by decide)
  refine ⟨a', heq, ?_, ?_⟩
  · rw [hdev exDev1]
    decide
  · rw [hslot 1]
    decide

/-- The rebuilding fold splits into independent slot-table and device-view
folds. -/
theorem rebuildSlots_split (e dr : Bool) (slots : List SlotData)
    (ss : List (DeviceID × Slot)) (ds : List (Device × Option CID)) :
    slots.foldl (fun acc sd =>
      (minsert acc.1 sd.Device.id (recoveredSlot e dr sd),
       match sd.ContainerID with
       | some c => minsert acc.2 sd.Device (some c)
       | none => minsert acc.2 sd.Device none)) (ss, ds) =
    (slots.foldl (fun m sd =>
        minsert m sd.Device.id (recoveredSlot e dr sd)) ss,
     slots.foldl (fun m sd => minsert m sd.Device sd.ContainerID) ds) := by
  induction slots generalizing ss ds with
  | nil => rfl
  | cons sd rest ih =>
    simp only [List.foldl_cons]
    rw [ih]
    congr 1
    cases sd.ContainerID <;> rfl

/-- On snapshots with distinct device IDs and devices, the rebuild produces
exactly the mapped rows. -/
theorem rebuildSlots_eq (e dr : Bool) (slots : List SlotData)
    (hn : (slots.map (fun sd => sd.Device.id)).Nodup)
    (hnd : (slots.map (fun sd => sd.Device)).Nodup) :
    rebuildSlots slots e dr =
      (slots.map (fun sd => (sd.Device.id, recoveredSlot e dr sd)),
       slots.map (fun sd => (sd.Device, sd.ContainerID))) := by
  unfold rebuildSlots
  rw [rebuildSlots_split]
  congr 1
  · exact foldl_minsert_map slots (fun sd => sd.Device.id)
      (recoveredSlot e dr) hn
  · exact foldl_minsert_map slots (fun sd => sd.Device)
      (fun sd => sd.ContainerID) hnd

/-- C1 (amended): on an aggregate with well-formed slot keys (distinct, and
each equal to its slot's device ID — invariants of reachable states) and a
store returning one row per stored container ID, the snapshot round trip
preserves the slot table's keys, each slot's device and occupant, rebuilds
the device view as exactly the slot projection, preserves the tracked
container ID set, and leaves the owner map empty.  Each recovered slot's
enablement flags, however, are `{deviceAdded := true, agentEnabled =
userEnabled = the agent's enabled flag, draining = the agent's draining
flag}` rather than the original per-slot flags, so flags (and a device view
thinned by disablement) are preserved only when they already had that form
(see the counterexample). -/
theorem snapshot_roundtrip (a : AgentState) (fetch : CID → Container)
    (hkeys : (mkeys a.slotStates).Nodup)
    (hdev : ∀ p ∈ a.slotStates, p.2.device.id = p.1)
    (hfetch : ∀ c ∈ mkeys a.containerState, (fetch c).id = c) :
    (newAgentStateFromSnapshot (snapshot a) fetch).slotStates =
      a.slotStates.map (fun p =>
        (p.1, ({ device := p.2.device
                 enabled :=
                   { deviceAdded := true
                     agentEnabled := a.enabled
                     userEnabled := a.enabled
                     draining := a.draining }
                 containerID := p.2.containerID } : Slot))) ∧
    (newAgentStateFromSnapshot (snapshot a) fetch).Devices =
      a.slotStates.map (fun p => (p.2.device, p.2.containerID)) ∧
    (∀ c, (mlookup
        (newAgentStateFromSnapshot (snapshot a) fetch).containerState c).isSome
      ↔ (mlookup a.containerState c).isSome) ∧
    (newAgentStateFromSnapshot (snapshot a) fetch).containerAllocation = [] := by
  have hids : ((snapshot a).Slots.map (fun sd => sd.Device.id)).Nodup := by
    show ((a.slotStates.map (fun p =>
      ({ Device := p.2.device
         UserEnabled := p.2.enabled.userEnabled
         ContainerID := p.2.containerID } : SlotData))).map
        (fun sd => sd.Device.id)).Nodup
    rw [List.map_map]
    have : a.slotStates.map
        ((fun sd : SlotData => sd.Device.id) ∘ (fun p =>
          ({ Device := p.2.device
             UserEnabled := p.2.enabled.userEnabled
             ContainerID := p.2.containerID } : SlotData))) =
        a.slotStates.map (fun p => p.1) :=
      List.map_congr_left (fun p hp => hdev p hp)
    rw [this]
    exact hkeys
  have hdevs : ((snapshot a).Slots.map (fun sd => sd.Device)).Nodup := by
    have : ((snapshot a).Slots.map (fun sd => sd.Device)).map
        (fun d => d.id) = (snapshot a).Slots.map (fun sd => sd.Device.id) := by
      rw [List.map_map]
      exact List.map_congr_left (fun sd _ => rfl)
    exact List.Nodup.of_map (fun d => d.id) (by rw [this]; exact hids)
  have hreb := rebuildSlots_eq (snapshot a).UserEnabled
    (snapshot a).UserDraining (snapshot a).Slots hids hdevs
  refine ⟨?_, ?_, ?_, rfl⟩
  · show (rebuildSlots (snapshot a).Slots (snapshot a).UserEnabled
      (snapshot a).UserDraining).1 = _
    rw [hreb]
    show ((a.slotStates.map (fun p =>
      ({ Device := p.2.device
         UserEnabled := p.2.enabled.userEnabled
         ContainerID := p.2.containerID } : SlotData))).map
        (fun sd => (sd.Device.id, recoveredSlot a.enabled a.draining sd))) = _
    rw [List.map_map]
    apply List.map_congr_left
    intro p hp
    show (p.2.device.id, _) = (p.1, _)
    rw [hdev p hp]
    rfl
  · show (rebuildSlots (snapshot a).Slots (snapshot a).UserEnabled
      (snapshot a).UserDraining).2 = _
    rw [hreb]
    show ((a.slotStates.map (fun p =>
      ({ Device := p.2.device
         UserEnabled := p.2.enabled.userEnabled
         ContainerID := p.2.containerID } : SlotData))).map
        (fun sd => (sd.Device, sd.ContainerID))) = _
    rw [List.map_map]
    exact List.map_congr_left (fun p _ => rfl)
  · intro c
    show (mlookup ((snapshot a).Containers.foldl
      (fun m c => minsert m (fetch c).id (fetch c)) []) c).isSome ↔ _
    rw [mlookup_isSome_iff, mlookup_isSome_iff,
      mem_mkeys_foldl_minsert (snapshot a).Containers
        (fun c => (fetch c).id) fetch [] c]
    constructor
    · rintro (h1 | ⟨x, hx, hk⟩)
      · simp [mkeys] at h1
      · rw [← hk, hfetch x hx]
        exact hx
    · intro h
      exact Or.inr ⟨c, h, hfetch c h⟩

/-- An aggregate as it stands after an operator disabled slot 1 without
draining: the slot's `userEnabled` and `deviceAdded` are false and the
device is out of the view. -/
def exA1 : AgentState :=
  { exEnabled with
    Devices := []
    slotStates := [(1, { device := exDev1
                         enabled := { deviceAdded := false
                                      agentEnabled := true
                                      userEnabled := false
                                      draining := false }
                         containerID := none })]
    containerState := []
    containerAllocation := [] }

/-- The store read modelled as returning the bare registered record for
each container ID. -/
def exFetch : CID → Container := fun c => emptyContainerRecord c

/-- C1 counterexample: the round trip does not preserve per-slot enablement
flags nor the thinned device view — on `exA1` the recovered slot is fully
re-enabled (`userEnabled` back to true, `deviceAdded` back to true) and the
removed device reappears in the view. -/
theorem snapshot_roundtrip_changes_flags :
    (mlookup (newAgentStateFromSnapshot (snapshot exA1) exFetch).slotStates
        1).map (fun s => s.enabled) ≠
      (mlookup exA1.slotStates 1).map (fun s => s.enabled) ∧
    (newAgentStateFromSnapshot (snapshot exA1) exFetch).Devices ≠
      exA1.Devices := by
  constructor
  · decide
  · decide

/-- Witness for the amended C1 on the concrete consistent aggregate. -/
theorem snapshot_roundtrip_witness :
    (newAgentStateFromSnapshot (snapshot exEnabled) exFetch).Devices =
      exEnabled.slotStates.map (fun p => (p.2.device, p.2.containerID)) ∧
    ((mlookup (newAgentStateFromSnapshot
        (snapshot exEnabled) exFetch).containerState "c1").isSome ↔
      (mlookup exEnabled.containerState "c1").isSome) ∧
    (newAgentStateFromSnapshot (snapshot exEnabled) exFetch).containerAllocation
      = [] := by
  have h := snapshot_roundtrip exEnabled exFetch (by decide)
    (by
      intro p hp
      rcases List.mem_cons.1 hp with h1 | hp2
      · rw [h1]; decide
      · rcases List.mem_cons.1 hp2 with h1 | h1
        · rw [h1]; decide
        · simp at h1)
    (by
      intro c hc
      rfl)
  exact ⟨h.2.1, h.2.2.1 "c1", h.2.2.2⟩

/-- C6 (amended): `deepCopy` value-copies the device view and the container
records (so later replacement of entries in the original's own maps is not
observable in the copy's maps, and operations such as `deallocateContainer`
and `containerStateChanged` touch neither the slot references nor, for the
latter, the device view), and drops the owner map; but the slot table is
shared, so the copy reads every slot through the same references as the
original and slot mutations by the original are observable through the copy
(see the counterexample). -/
theorem deepCopyH_spec (a : AgentStateH) :
    (∀ store did, readSlotH store (deepCopyH a) did = readSlotH store a did) ∧
    (deepCopyH a).Devices = a.Devices ∧
    (deepCopyH a).containerState = a.containerState ∧
    (deepCopyH a).containerAllocation = [] ∧
    (∀ cid, (deallocateContainerH a cid).slotRefs = a.slotRefs) ∧
    (∀ store c, (containerStateChangedH store a c).2.slotRefs = a.slotRefs ∧
      (containerStateChangedH store a c).2.Devices = a.Devices) :=
  ⟨fun _ _ => rfl, rfl, rfl, rfl, fun _ => rfl, fun _ _ => ⟨rfl, rfl⟩⟩

/-- A one-slot store and aggregate for the aliasing counterexample. -/
def exStore6 : List Slot := [exSlot exDev1 (some "c1")]

def exH6 : AgentStateH :=
  { id := "agent"
    Devices := [(exDev1, some "c1")]
    resourcePoolName := "default"
    enabled := true
    draining := false
    maxZeroSlotContainers := 1
    slotRefs := [(1, 0)]
    containerAllocation := [("c1", "alloc1")]
    containerState := [("c1", { id := "c1", state := .running
                                devices := [exDev1] })] }

/-- The terminated-container event applied to the original aggregate. -/
def exTerm6 : Container :=
  { id := "c1", state := .terminated, devices := [exDev1] }

/-- C6 counterexample: after the original processes a terminated-container
event, the slot read through the untouched copy has changed (its occupant
was cleared through the shared slot table), so mutations of the original's
slots ARE observable through the copy. -/
theorem deepCopy_slot_mutation_observable :
    readSlotH (containerStateChangedH exStore6 exH6 exTerm6).1
        (deepCopyH exH6) 1 ≠
      readSlotH exStore6 (deepCopyH exH6) 1 := by
  decide

end AgentRM
